import Mathlib

/-!
# AutoUpdateTextStage

A shallow embedding of `post_processing_stages/auto_update_text_stage.cpp`: a post-processing
stage that keeps a cached text, reloads it from a file every `update_interval_` seconds (from a
background thread, or inline from `Process` when that thread is not running), lets a frame's
metadata redirect the file path, and publishes the text into the frame's metadata.

Conventions of the embedding.

* `std::string` is `String`.
* A `steady_clock::time_point` is an `Int` count of clock ticks; `tps` is the number of ticks in
  one second (the clock's period is `1 / tps` seconds).  Every `steady_clock::now()` of the source
  is an explicit argument holding the value that call returned.
* `duration_cast<std::chrono::seconds>` is truncating division by `tps` (`Int.tdiv`).
* A mutex-protected member is a plain field; a member function is a function from the stage
  before the call to the stage after it.
-/

/-- The files visible to the stage.  `fs path = none` when `std::ifstream file(path)` fails to
open; `fs path = some lines` when it opens and the successive `std::getline` calls yield
`lines`, in order, before the first failing call. -/
abbrev FileSystem := String → Option (List String)

/-- Modelled from the spec: the per-frame keyed side-channel (`post_process_metadata`), whose
class is declared outside this file.  An entry is either absent or holds a string. -/
structure Metadata where
  data : String → Option String

/-- Modelled from the spec: `Get(tag, value)`; `some v` is the call returning `0` with
`value = v`, `none` is the call returning non-zero (no such entry). -/
def Metadata.Get (md : Metadata) (tag : String) : Option String :=
  md.data tag

/-- Modelled from the spec: `Set(tag, value)` writes the entry and leaves every other entry. -/
def Metadata.Set (md : Metadata) (tag : String) (value : String) : Metadata :=
  ⟨fun k => if k = tag then some value else md.data k⟩

/-- The same metadata with the entry `tag` absent. -/
def Metadata.without (md : Metadata) (tag : String) : Metadata :=
  ⟨fun k => if k = tag then none else md.data k⟩

/-- The mutable members of `class AutoUpdateTextStage`. -/
structure AutoUpdateTextStage where
  file_path_ : String
  current_text_ : String
  running_ : Bool
  last_read_time_ : Int
  deriving DecidableEq

namespace AutoUpdateTextStage

/-- The member `static constexpr std::chrono::seconds update_interval_{5}`, in seconds. -/
def update_interval_ : Int := 5

/-- The constructor `AutoUpdateTextStage(RPiCamApp *app)`: `running_(false)`,
`last_read_time_(steady_clock::now())`, the two strings default-constructed.  `now` is the
value of that `steady_clock::now()`. -/
def ctor (now : Int) : AutoUpdateTextStage :=
  { file_path_ := "", current_text_ := "", running_ := false, last_read_time_ := now }

/-- The member function `GetFilePath`. -/
def GetFilePath (self : AutoUpdateTextStage) : String :=
  self.file_path_

/-- The member function `SetFilePath`. -/
def SetFilePath (self : AutoUpdateTextStage) (path : String) : AutoUpdateTextStage :=
  { self with file_path_ := path }

/-- The member function `Read`: `file` is the configuration's `"file"` entry, if any
(`params.get<std::string>("file", "")`). -/
def Read (self : AutoUpdateTextStage) (file : Option String) : AutoUpdateTextStage :=
  let path := file.getD ""
  self.SetFilePath path

/-- The member function `Start`; the background thread it launches is represented by
`running_ = true`. -/
def Start (tps : Int) (now : Int) (self : AutoUpdateTextStage) : AutoUpdateTextStage :=
  { self with running_ := true, last_read_time_ := now - update_interval_ * tps }

/-- The member function `Stop`. -/
def Stop (self : AutoUpdateTextStage) : AutoUpdateTextStage :=
  if self.running_ then { self with running_ := false } else self

/-- One iteration of the `while (std::getline(file, line))` body of `ReadTextFromFile`:
from `new_text` and the `line` just read to the next `new_text`. -/
def appendLine (new_text : String) (line : String) : String :=
  let new_text := if !new_text.isEmpty then new_text ++ "\n" else new_text
  new_text ++ line

/-- The whole `while (std::getline(file, line))` loop of `ReadTextFromFile`, started from the
empty `new_text`, over the lines the stream yields. -/
def readLoop (lines : List String) : String :=
  lines.foldl appendLine ""

/-- The member function `ReadTextFromFile`. -/
def ReadTextFromFile (fs : FileSystem) (self : AutoUpdateTextStage) : AutoUpdateTextStage :=
  let path := self.GetFilePath
  if path.isEmpty then self
  else
    match fs path with
    | none => self
    | some lines =>
      let new_text := readLoop lines
      { self with current_text_ := new_text }

/-- One iteration of the `while (running_)` body of `UpdateThreadFunc` (the sleep apart), with
`now` the clock reading of that iteration.  The second component tells whether the iteration
called `ReadTextFromFile`. -/
def UpdateThreadPass (tps : Int) (fs : FileSystem) (now : Int) (self : AutoUpdateTextStage) :
    AutoUpdateTextStage × Bool :=
  let elapsed := (now - self.last_read_time_).tdiv tps
  if elapsed ≥ update_interval_ then
    (ReadTextFromFile fs { self with last_read_time_ := now }, true)
  else
    (self, false)

/-- The member function `UpdateThreadFunc`, over the wakes that happen before the stage is
observed again: each wake has its clock reading and the file system at that moment. -/
def UpdateThreadFunc (tps : Int) : List (Int × FileSystem) → AutoUpdateTextStage →
    AutoUpdateTextStage
  | [], self => self
  | (now, fs) :: rest, self =>
    if self.running_ then UpdateThreadFunc tps rest (UpdateThreadPass tps fs now self).1
    else self

end AutoUpdateTextStage

/-- What one call of `Process` leaves behind: the returned boolean, the frame's metadata, the
stage, and whether the call reached its `ReadTextFromFile()` call. -/
structure ProcessResult where
  ret : Bool
  metadata : Metadata
  stage : AutoUpdateTextStage
  read_called : Bool

namespace AutoUpdateTextStage

/-- The member function `Process`.  `md` is `completed_request->post_process_metadata`,
`t_redirect` the clock reading taken when the path is changed and `t_check` the one taken by
the inline interval check (each is used only if the source reaches that `now()` call). -/
def Process (tps : Int) (fs : FileSystem) (t_redirect t_check : Int) (md : Metadata)
    (self : AutoUpdateTextStage) : ProcessResult :=
  let s1 : AutoUpdateTextStage :=
    match md.Get "auto_update_text.file" with
    | some file_from_metadata =>
      let current_path := self.GetFilePath
      if file_from_metadata ≠ current_path then
        { self.SetFilePath file_from_metadata with
          last_read_time_ := t_redirect - update_interval_ * tps }
      else self
    | none => self
  let s2 : AutoUpdateTextStage × Bool :=
    if !s1.running_ then
      let now := t_check
      let elapsed := (now - s1.last_read_time_).tdiv tps
      if elapsed ≥ update_interval_ then
        (ReadTextFromFile fs { s1 with last_read_time_ := now }, true)
      else (s1, false)
    else (s1, false)
  let text := s2.1.current_text_
  let md1 := if !text.isEmpty then md.Set "annotate.text" text else md
  { ret := false, metadata := md1, stage := s2.1, read_called := s2.2 }

end AutoUpdateTextStage

/-- One invocation of `Process` as the pipeline makes it: the frame's metadata, the two clock
readings the call may take, and the file system during the call. -/
structure Frame where
  metadata : Metadata
  t_redirect : Int
  t_check : Int
  fs : FileSystem

/-- The frame with the redirect entry `"auto_update_text.file"` absent from its metadata. -/
def Frame.withoutPath (f : Frame) : Frame :=
  { f with metadata := f.metadata.without "auto_update_text.file" }

/-- The frame asks for no path change of a stage whose path is `path`: its metadata has no
`"auto_update_text.file"` entry, or that entry equals `path`. -/
def Frame.keepsPath (f : Frame) (path : String) : Prop :=
  f.metadata.Get "auto_update_text.file" = none ∨
    f.metadata.Get "auto_update_text.file" = some path

/-- The stage after `Process` is called once per frame, in order, together with, for each call
in order, whether it called `ReadTextFromFile`. -/
def runFrames (tps : Int) : List Frame → AutoUpdateTextStage → AutoUpdateTextStage × List Bool
  | [], s => (s, [])
  | f :: rest, s =>
    let r := s.Process tps f.fs f.t_redirect f.t_check f.metadata
    let out := runFrames tps rest r.stage
    (out.1, r.read_called :: out.2)

/-- A refresh check from either call site: a `Process` call on a frame, or one wake of the
background loop (`while (running_)` evaluated, then one iteration of its body). -/
inductive Call where
  | frame (f : Frame)
  | wake (now : Int) (fs : FileSystem)

/-- The path-change request a call carries: none for a wake. -/
def Call.keepsPath : Call → String → Prop
  | Call.frame f, path => f.keepsPath path
  | Call.wake _ _, _ => True

/-- The file system during the call. -/
def Call.fs : Call → FileSystem
  | Call.frame f => f.fs
  | Call.wake _ fs => fs

/-- The stage after one call. -/
def Call.apply (tps : Int) (s : AutoUpdateTextStage) : Call → AutoUpdateTextStage
  | Call.frame f => (s.Process tps f.fs f.t_redirect f.t_check f.metadata).stage
  | Call.wake now fs => s.UpdateThreadFunc tps [(now, fs)]

/-- The stage after a sequence of calls, in order. -/
def runCalls (tps : Int) (s : AutoUpdateTextStage) (calls : List Call) : AutoUpdateTextStage :=
  calls.foldl (Call.apply tps) s

/-- The newline-join of a line sequence as the specification words it:
`l1 + "\n" + l2 + ... + "\n" + ln`, the empty string for no lines. -/
def joinLines : List String → String
  | [] => ""
  | [l] => l
  | l :: rest => l ++ "\n" ++ joinLines rest

/-- The source at `path` cannot be loaded from: the path is empty or the file does not open. -/
def Unreadable (fs : FileSystem) (path : String) : Prop :=
  path = "" ∨ fs path = none

/-- A metadata bag with no entry. -/
def emptyMetadata : Metadata :=
  ⟨fun _ => none⟩

/-- A file system whose only file that opens is `path`, yielding `lines`. -/
def fileWith (path : String) (lines : List String) : FileSystem :=
  fun p => if p = path then some lines else none

/-- A file system in which no file opens. -/
def noFiles : FileSystem :=
  fun _ => none

/-- A frame that carries no metadata and takes both clock readings at `t`. -/
def plainFrame (t : Int) (fs : FileSystem) : Frame :=
  { metadata := emptyMetadata, t_redirect := t, t_check := t, fs := fs }

/-- A frame whose metadata holds only the redirect entry, naming `path`, and which takes both
clock readings at `t`. -/
def pathFrame (path : String) (t : Int) (fs : FileSystem) : Frame :=
  { metadata := emptyMetadata.Set "auto_update_text.file" path, t_redirect := t, t_check := t,
    fs := fs }

/-- A stage whose path is `"f"` and whose timestamp is the clock's zero, with the given cached
text and running flag. -/
def cachedStage (text : String) (running : Bool) : AutoUpdateTextStage :=
  { file_path_ := "f", current_text_ := text, running_ := running, last_read_time_ := 0 }

/-- A stage configured with the file `"f"`, not started, whose timestamp is the clock's zero. -/
def configuredStage : AutoUpdateTextStage :=
  (AutoUpdateTextStage.ctor 0).Read (some "f")

/-- Three frames 3 s apart on a nanosecond clock, at 5 s, 8 s and 11 s; the file `"f"` holds
`"a"` during the first and `"b"` during the other two. -/
def spacedFrames : List Frame :=
  [plainFrame 5000000000 (fileWith "f" ["a"]), plainFrame 8000000000 (fileWith "f" ["b"]),
    plainFrame 11000000000 (fileWith "f" ["b"])]

open AutoUpdateTextStage

/-! ## Auxiliary lemmas -/

theorem String.append_ne_empty_left {a : String} (b : String) (h : a ≠ "") : a ++ b ≠ "" := by
  intro hab
  apply h
  have := congrArg String.data hab
  rw [String.data_append] at this
  simp at this
  exact String.ext this.1

theorem String.isEmpty_eq_false {a : String} (h : a ≠ "") : a.isEmpty = false := by
  cases hb : a.isEmpty
  · rfl
  · exact absurd ((String.isEmpty_iff a).1 hb) h

theorem String.isEmpty_empty : "".isEmpty = true := rfl

theorem appendLine_empty (l : String) : appendLine "" l = l := by
  simp [appendLine, String.isEmpty_empty]

theorem appendLine_nonempty {acc : String} (h : acc ≠ "") (l : String) :
    appendLine acc l = acc ++ "\n" ++ l := by
  simp [appendLine, String.isEmpty_eq_false h]

theorem joinLines_cons (l : String) (ls : List String) :
    joinLines (l :: ls) = if ls = [] then l else l ++ "\n" ++ joinLines ls := by
  cases ls <;> simp [joinLines]

theorem foldl_appendLine_nonempty (ls : List String) {acc : String} (h : acc ≠ "") :
    ls.foldl appendLine acc = if ls = [] then acc else acc ++ "\n" ++ joinLines ls := by
  induction ls generalizing acc with
  | nil => simp
  | cons l ls ih =>
    have h1 : acc ++ "\n" ++ l ≠ "" := by
      rw [String.append_assoc]
      exact String.append_ne_empty_left _ h
    rw [List.foldl_cons, appendLine_nonempty h, ih h1, joinLines_cons]
    by_cases hls : ls = []
    · simp [hls]
    · simp [hls, String.append_assoc]

theorem readLoop_eq (ls : List String) :
    readLoop ls = joinLines (ls.dropWhile fun l => l.isEmpty) := by
  unfold readLoop
  induction ls with
  | nil => rfl
  | cons l ls ih =>
    by_cases hl : l = ""
    · subst hl
      rw [List.foldl_cons, appendLine_empty, ih]
      rfl
    · have hd : (l :: ls).dropWhile (fun l => l.isEmpty) = l :: ls := by
        simp [List.dropWhile, String.isEmpty_eq_false hl]
      rw [hd, List.foldl_cons, appendLine_empty, foldl_appendLine_nonempty ls hl, joinLines_cons]

theorem ReadTextFromFile_of_unreadable {fs : FileSystem} {s : AutoUpdateTextStage}
    (h : Unreadable fs s.file_path_) : ReadTextFromFile fs s = s := by
  unfold ReadTextFromFile GetFilePath
  rcases h with h | h
  · simp [h, String.isEmpty_empty]
  · simp [h]

theorem ReadTextFromFile_of_open {fs : FileSystem} {s : AutoUpdateTextStage}
    {lines : List String} (hp : s.file_path_ ≠ "") (ho : fs s.file_path_ = some lines) :
    ReadTextFromFile fs s = { s with current_text_ := readLoop lines } := by
  unfold ReadTextFromFile GetFilePath
  simp [String.isEmpty_eq_false hp, ho]

theorem ReadTextFromFile_frame (fs : FileSystem) (s : AutoUpdateTextStage) :
    (ReadTextFromFile fs s).file_path_ = s.file_path_ ∧
      (ReadTextFromFile fs s).running_ = s.running_ ∧
      (ReadTextFromFile fs s).last_read_time_ = s.last_read_time_ := by
  unfold ReadTextFromFile GetFilePath
  by_cases hp : s.file_path_.isEmpty = true
  · simp [hp]
  · cases ho : fs s.file_path_ <;> simp [hp, ho]

theorem interval_le_tdiv_iff {tps : Int} (htps : 0 < tps) (x : Int) :
    update_interval_ ≤ x.tdiv tps ↔ update_interval_ * tps ≤ x := by
  unfold update_interval_
  by_cases hx : 0 ≤ x
  · rw [Int.tdiv_eq_ediv hx (le_of_lt htps)]
    exact Int.le_ediv_iff_mul_le htps
  · have hx0 : x ≤ 0 := by omega
    have h1 : x.tdiv tps ≤ 0 := by
      have hn : (-x).tdiv (-tps) ≤ 0 := Int.tdiv_nonpos (by omega) (by omega)
      simpa using hn
    have h2 : 0 < 5 * tps := by omega
    constructor
    · intro h; omega
    · intro h; omega

/-! ## The load step -/

/-- C10: for a source that opens and yields `lines`, `ReadTextFromFile` stores the newline-join
of `lines` with its leading empty lines removed; a source of empty lines only stores the empty
string, and after the first non-empty line every line, empty or not, is kept. -/
theorem ReadTextFromFile_joins_after_leading_empty_lines (fs : FileSystem)
    (s : AutoUpdateTextStage) (lines : List String) (hp : s.file_path_ ≠ "")
    (ho : fs s.file_path_ = some lines) :
    (ReadTextFromFile fs s).current_text_ = joinLines (lines.dropWhile fun l => l.isEmpty) ∧
      (∀ n : Nat, readLoop (List.replicate n "") = "") ∧
      (∀ (n : Nat) (c : Char) (cs : List Char) (rest : List String),
        readLoop (List.replicate n "" ++ String.mk (c :: cs) :: rest) =
          joinLines (String.mk (c :: cs) :: rest)) := by
  refine ⟨?_, ?_, ?_⟩
  · rw [ReadTextFromFile_of_open hp ho]
    exact readLoop_eq lines
  · intro n
    rw [readLoop_eq]
    have : List.dropWhile (fun l => l.isEmpty) (List.replicate n "") = [] := by
      induction n with
      | zero => rfl
      | succ n ih => simp [List.replicate_succ, List.dropWhile, String.isEmpty_empty]
    rw [this]
    rfl
  · intro n c cs rest
    rw [readLoop_eq]
    have hne : String.mk (c :: cs) ≠ "" := by
      intro h
      have := congrArg String.data h
      simp at this
    have : List.dropWhile (fun l => l.isEmpty)
        (List.replicate n "" ++ String.mk (c :: cs) :: rest) = String.mk (c :: cs) :: rest := by
      induction n with
      | zero => simp [List.dropWhile, String.isEmpty_eq_false hne]
      | succ n ih =>
        simpa [List.replicate_succ, List.dropWhile, String.isEmpty_empty] using ih
    rw [this]

/-- Witness of `ReadTextFromFile_joins_after_leading_empty_lines`: the lines `""`, `""`, `"a"`,
`""`, `"b"` are stored as `"a\n\nb"`. -/
theorem ReadTextFromFile_joins_after_leading_empty_lines_witness :
    ("f" ≠ "" ∧ (fun p => if p = "f" then some ["", "", "a", "", "b"] else none) "f" =
        some ["", "", "a", "", "b"]) ∧
      (ReadTextFromFile (fun p => if p = "f" then some ["", "", "a", "", "b"] else none)
        { file_path_ := "f", current_text_ := "old", running_ := false,
          last_read_time_ := 0 }).current_text_ = "a\n\nb" :=
  ⟨⟨by decide, by decide⟩,
    (ReadTextFromFile_joins_after_leading_empty_lines
      (fun p => if p = "f" then some ["", "", "a", "", "b"] else none)
      { file_path_ := "f", current_text_ := "old", running_ := false, last_read_time_ := 0 }
      ["", "", "a", "", "b"] (by decide) (by decide)).1.trans (by decide)⟩

/-- C1: at a source whose first line is empty the stored text is not the newline-join of the
lines read: the lines `""`, `"a"` (file content `"\na"`) are stored as `"a"`, while their join
is `"\na"`; the lines `"line1"`, `"line2"` are stored as `"line1\nline2"` and no lines as the
empty string. -/
theorem ReadTextFromFile_loses_leading_empty_line :
    (ReadTextFromFile (fun p => if p = "f" then some ["", "a"] else none)
        { file_path_ := "f", current_text_ := "", running_ := false,
          last_read_time_ := 0 }).current_text_ = "a" ∧
      joinLines ["", "a"] = "\na" ∧
      (ReadTextFromFile (fun p => if p = "f" then some ["line1", "line2"] else none)
        { file_path_ := "f", current_text_ := "", running_ := false,
          last_read_time_ := 0 }).current_text_ = "line1\nline2" ∧
      (ReadTextFromFile (fun p => if p = "f" then some [] else none)
        { file_path_ := "f", current_text_ := "old", running_ := false,
          last_read_time_ := 0 }).current_text_ = "" := by
  decide

/-! ## One call of `Process` -/

/-- C7: while the background loop is running, a `Process` call that asks for no path change
makes no interval check and no reload: the stage after the call is the stage before it,
whatever the clock readings and the file system. -/
theorem Process_running_leaves_stage (tps : Int) (fs : FileSystem) (t_redirect t_check : Int)
    (md : Metadata) (s : AutoUpdateTextStage) (hrun : s.running_ = true)
    (hkeep : md.Get "auto_update_text.file" = none ∨
      md.Get "auto_update_text.file" = some s.file_path_) :
    (s.Process tps fs t_redirect t_check md).read_called = false ∧
      (s.Process tps fs t_redirect t_check md).stage = s := by
  unfold Process GetFilePath
  rcases hkeep with h | h <;> simp [h, hrun]

/-- Witness of `Process_running_leaves_stage`: 100 s after the last reload, with the file changed,
a running stage keeps its text `"old"` and its timestamp. -/
theorem Process_running_leaves_stage_witness :
    ((true = true) ∧ ((⟨fun _ => none⟩ : Metadata).Get "auto_update_text.file" = none ∨
        (⟨fun _ => none⟩ : Metadata).Get "auto_update_text.file" = some "f")) ∧
      (Process 1000000000 (fun _ => some ["new"]) 100000000000 100000000000 ⟨fun _ => none⟩
        { file_path_ := "f", current_text_ := "old", running_ := true,
          last_read_time_ := 0 }).stage =
        { file_path_ := "f", current_text_ := "old", running_ := true, last_read_time_ := 0 } :=
  ⟨⟨rfl, Or.inl rfl⟩,
    (Process_running_leaves_stage 1000000000 (fun _ => some ["new"]) 100000000000 100000000000
      ⟨fun _ => none⟩
      { file_path_ := "f", current_text_ := "old", running_ := true, last_read_time_ := 0 }
      rfl (Or.inl rfl)).2⟩

/-- C8: `Process` returns `false`; when the cached text after the call is non-empty the frame's
`"annotate.text"` entry holds it, and when it is empty the frame's metadata is what it was on
entry. -/
theorem Process_returns_false_and_publishes (tps : Int) (fs : FileSystem)
    (t_redirect t_check : Int) (md : Metadata) (s : AutoUpdateTextStage) :
    (s.Process tps fs t_redirect t_check md).ret = false ∧
      (if (s.Process tps fs t_redirect t_check md).stage.current_text_ = "" then
        (s.Process tps fs t_redirect t_check md).metadata = md
      else
        (s.Process tps fs t_redirect t_check md).metadata.Get "annotate.text" =
          some (s.Process tps fs t_redirect t_check md).stage.current_text_) := by
  refine ⟨rfl, ?_⟩
  by_cases ht : (s.Process tps fs t_redirect t_check md).stage.current_text_ = ""
  · rw [if_pos ht]
    unfold Process at ht ⊢
    simp only at ht ⊢
    rw [ht]
    simp [String.isEmpty_empty]
  · rw [if_neg ht]
    unfold Process at ht ⊢
    simp only at ht ⊢
    rw [String.isEmpty_eq_false ht]
    simp [Metadata.Get, Metadata.Set]

/-! ## The interval check at the two call sites -/

/-- C9: one pass of the background loop and the inline check of `Process` (background loop not
running, no path change asked by the metadata) decide alike: `ReadTextFromFile` is called
exactly when `now - last_read_time_` is at least five seconds of ticks; then the timestamp
becomes `now`, whatever the load does, and otherwise the stage is left as it was. -/
theorem refresh_sites_agree (tps : Int) (htps : 0 < tps) (fs : FileSystem) (now : Int)
    (t_redirect : Int) (md : Metadata) (s : AutoUpdateTextStage)
    (hmd : md.Get "auto_update_text.file" = none ∨
      md.Get "auto_update_text.file" = some s.file_path_) :
    UpdateThreadPass tps fs now s =
        (if 5 * tps ≤ now - s.last_read_time_ then
          (ReadTextFromFile fs { s with last_read_time_ := now }, true)
        else (s, false)) ∧
      ((Process tps fs t_redirect now md { s with running_ := false }).stage,
          (Process tps fs t_redirect now md { s with running_ := false }).read_called) =
        (if 5 * tps ≤ now - s.last_read_time_ then
          (ReadTextFromFile fs { s with running_ := false, last_read_time_ := now }, true)
        else ({ s with running_ := false }, false)) ∧
      (UpdateThreadPass tps fs now s).1.last_read_time_ =
        (if 5 * tps ≤ now - s.last_read_time_ then now else s.last_read_time_) ∧
      (Process tps fs t_redirect now md { s with running_ := false }).stage.last_read_time_ =
        (if 5 * tps ≤ now - s.last_read_time_ then now else s.last_read_time_) ∧
      (if 5 * tps ≤ now - s.last_read_time_ then True
      else
        (UpdateThreadPass tps fs now s).1.current_text_ = s.current_text_ ∧
          (Process tps fs t_redirect now md
            { s with running_ := false }).stage.current_text_ = s.current_text_) := by
  have hiff := interval_le_tdiv_iff htps (now - s.last_read_time_)
  unfold update_interval_ at hiff
  have hpass : UpdateThreadPass tps fs now s =
      (if 5 * tps ≤ now - s.last_read_time_ then
        (ReadTextFromFile fs { s with last_read_time_ := now }, true)
      else (s, false)) := by
    unfold UpdateThreadPass update_interval_
    by_cases h : 5 * tps ≤ now - s.last_read_time_
    · simp [h, hiff.2 h]
    · have h1 : ¬ 5 ≤ (now - s.last_read_time_).tdiv tps := fun hc => h (hiff.1 hc)
      simp [h, h1]
  have hproc : ((Process tps fs t_redirect now md { s with running_ := false }).stage,
      (Process tps fs t_redirect now md { s with running_ := false }).read_called) =
      (if 5 * tps ≤ now - s.last_read_time_ then
        (ReadTextFromFile fs { s with running_ := false, last_read_time_ := now }, true)
      else ({ s with running_ := false }, false)) := by
    unfold Process GetFilePath update_interval_
    by_cases h : 5 * tps ≤ now - s.last_read_time_
    · rcases hmd with hmd | hmd <;> simp [hmd, h, hiff.2 h]
    · have h1 : ¬ 5 ≤ (now - s.last_read_time_).tdiv tps := fun hc => h (hiff.1 hc)
      rcases hmd with hmd | hmd <;> simp [hmd, h, h1]
  have hp1 := congrArg Prod.fst hproc
  simp only at hp1
  refine ⟨hpass, hproc, ?_, ?_, ?_⟩
  · rw [hpass]
    by_cases h : 5 * tps ≤ now - s.last_read_time_
    · simp [h, (ReadTextFromFile_frame fs _).2.2]
    · simp [h]
  · rw [hp1]
    by_cases h : 5 * tps ≤ now - s.last_read_time_
    · simp [h, (ReadTextFromFile_frame fs _).2.2]
    · simp [h]
  · by_cases h : 5 * tps ≤ now - s.last_read_time_
    · simp [h]
    · rw [if_neg h, hpass, hp1]
      simp [h]

/-- Witness of `refresh_sites_agree` at a nanosecond clock: 4.999999999 s after the last reload
neither site reloads, and exactly 5 s after it both do, also when the file does not open. -/
theorem refresh_sites_agree_witness :
    ((0 : Int) < 1000000000 ∧
        ((⟨fun _ => none⟩ : Metadata).Get "auto_update_text.file" = none ∨
          (⟨fun _ => none⟩ : Metadata).Get "auto_update_text.file" = some "f")) ∧
      UpdateThreadPass 1000000000 (fun _ => none) 5000000000
          { file_path_ := "f", current_text_ := "old", running_ := true, last_read_time_ := 0 } =
        ({ file_path_ := "f", current_text_ := "old", running_ := true,
            last_read_time_ := 5000000000 }, true) ∧
      UpdateThreadPass 1000000000 (fun _ => none) 4999999999
          { file_path_ := "f", current_text_ := "old", running_ := true, last_read_time_ := 0 } =
        ({ file_path_ := "f", current_text_ := "old", running_ := true,
            last_read_time_ := 0 }, false) :=
  ⟨⟨by decide, Or.inl rfl⟩,
    (refresh_sites_agree 1000000000 (by decide) (fun _ => none) 5000000000 0 ⟨fun _ => none⟩
      { file_path_ := "f", current_text_ := "old", running_ := true, last_read_time_ := 0 }
      (Or.inl rfl)).1.trans (by decide),
    by decide⟩

/-! ## Calls that ask for no path change -/

theorem Process_keepsPath_eq (tps : Int) (fs : FileSystem) (t1 t1' t_check : Int)
    (md md' : Metadata) (s : AutoUpdateTextStage)
    (h : md.Get "auto_update_text.file" = none ∨
      md.Get "auto_update_text.file" = some s.file_path_)
    (h' : md'.Get "auto_update_text.file" = none ∨
      md'.Get "auto_update_text.file" = some s.file_path_) :
    (s.Process tps fs t1 t_check md).stage = (s.Process tps fs t1' t_check md').stage ∧
      (s.Process tps fs t1 t_check md).read_called =
        (s.Process tps fs t1' t_check md').read_called := by
  unfold Process GetFilePath
  rcases h with h | h <;> rcases h' with h' | h' <;> simp [h, h']

theorem Process_keepsPath_path (tps : Int) (fs : FileSystem) (t1 t_check : Int)
    (md : Metadata) (s : AutoUpdateTextStage)
    (h : md.Get "auto_update_text.file" = none ∨
      md.Get "auto_update_text.file" = some s.file_path_) :
    (s.Process tps fs t1 t_check md).stage.file_path_ = s.file_path_ := by
  unfold Process GetFilePath
  rcases h with h | h <;> simp only [h, ne_eq, not_true_eq_false, if_false] <;>
    split_ifs <;> simp [(ReadTextFromFile_frame fs _).1]

theorem Process_not_due (tps : Int) (htps : 0 < tps) (fs : FileSystem) (t1 t_check : Int)
    (md : Metadata) (s : AutoUpdateTextStage)
    (h : md.Get "auto_update_text.file" = none ∨
      md.Get "auto_update_text.file" = some s.file_path_)
    (hlt : t_check - s.last_read_time_ < 5 * tps) :
    (s.Process tps fs t1 t_check md).stage = s ∧
      (s.Process tps fs t1 t_check md).read_called = false := by
  have hiff := interval_le_tdiv_iff htps (t_check - s.last_read_time_)
  unfold update_interval_ at hiff
  have h1 : ¬ 5 ≤ (t_check - s.last_read_time_).tdiv tps := fun hc => by
    have := hiff.1 hc
    omega
  unfold Process GetFilePath update_interval_
  rcases h with h | h <;> cases hr : s.running_ <;> simp [h, hr, h1]

theorem Process_unreadable (tps : Int) (fs : FileSystem) (t1 t_check : Int)
    (md : Metadata) (s : AutoUpdateTextStage)
    (h : md.Get "auto_update_text.file" = none ∨
      md.Get "auto_update_text.file" = some s.file_path_)
    (hu : Unreadable fs s.file_path_) :
    (s.Process tps fs t1 t_check md).stage.file_path_ = s.file_path_ ∧
      (s.Process tps fs t1 t_check md).stage.current_text_ = s.current_text_ := by
  refine ⟨Process_keepsPath_path tps fs t1 t_check md s h, ?_⟩
  have hr : ∀ now : Int,
      (ReadTextFromFile fs { s with last_read_time_ := now }).current_text_ = s.current_text_ :=
    fun now => by
      rw [ReadTextFromFile_of_unreadable (s := { s with last_read_time_ := now }) hu]
  unfold Process GetFilePath
  rcases h with h | h <;> simp only [h, ne_eq, not_true_eq_false, if_false] <;>
    split_ifs <;> simp [hr]

theorem UpdateThreadFunc_unreadable (tps : Int) (fs : FileSystem) (now : Int)
    (s : AutoUpdateTextStage) (hu : Unreadable fs s.file_path_) :
    (s.UpdateThreadFunc tps [(now, fs)]).file_path_ = s.file_path_ ∧
      (s.UpdateThreadFunc tps [(now, fs)]).current_text_ = s.current_text_ := by
  have hr : ReadTextFromFile fs { s with last_read_time_ := now } =
      { s with last_read_time_ := now } :=
    ReadTextFromFile_of_unreadable (s := { s with last_read_time_ := now }) hu
  unfold UpdateThreadFunc UpdateThreadFunc UpdateThreadPass
  simp only [hr]
  split_ifs <;> simp

theorem Call.apply_unreadable (tps : Int) (s : AutoUpdateTextStage) (c : Call)
    (hk : c.keepsPath s.file_path_) (hu : Unreadable c.fs s.file_path_) :
    (c.apply tps s).file_path_ = s.file_path_ ∧
      (c.apply tps s).current_text_ = s.current_text_ := by
  cases c with
  | frame f => exact Process_unreadable tps f.fs f.t_redirect f.t_check f.metadata s hk hu
  | wake now fs => exact UpdateThreadFunc_unreadable tps fs now s hu

theorem runCalls_unreadable (tps : Int) (calls : List Call) (s : AutoUpdateTextStage)
    (h : ∀ c ∈ calls, c.keepsPath s.file_path_ ∧ Unreadable c.fs s.file_path_) :
    (runCalls tps s calls).file_path_ = s.file_path_ ∧
      (runCalls tps s calls).current_text_ = s.current_text_ := by
  induction calls generalizing s with
  | nil => exact ⟨rfl, rfl⟩
  | cons c cs ih =>
    have hc := h c (List.mem_cons_self c cs)
    have hstep := Call.apply_unreadable tps s c hc.1 hc.2
    have hrest : ∀ c' ∈ cs, c'.keepsPath (c.apply tps s).file_path_ ∧
        Unreadable c'.fs (c.apply tps s).file_path_ := by
      intro c' hc'
      rw [hstep.1]
      exact h c' (List.mem_cons_of_mem c hc')
    have := ih (c.apply tps s) hrest
    unfold runCalls at this ⊢
    rw [List.foldl_cons]
    exact ⟨this.1.trans hstep.1, this.2.trans hstep.2⟩

theorem runFrames_not_due (tps : Int) (htps : 0 < tps) (frames : List Frame)
    (s : AutoUpdateTextStage)
    (h : ∀ f ∈ frames, f.keepsPath s.file_path_ ∧ f.t_check - s.last_read_time_ < 5 * tps) :
    (runFrames tps frames s).1 = s := by
  induction frames with
  | nil => rfl
  | cons f fr ih =>
    have hf := h f (List.mem_cons_self f fr)
    have hstep := Process_not_due tps htps f.fs f.t_redirect f.t_check f.metadata s hf.1 hf.2
    unfold runFrames
    simp only
    rw [hstep.1]
    exact ih fun f' hf' => h f' (List.mem_cons_of_mem f hf')

/-! ## Sequences of calls -/

/-- C2: a reload attempt with an empty path or a file that does not open leaves the cached text
as it was; and over any sequence of refresh checks from either call site (no path change asked)
during which the source stays unreadable, the cached text after each of them is the text the
sequence started with. -/
theorem unreadable_source_keeps_text (tps : Int) (fs : FileSystem) (s : AutoUpdateTextStage)
    (calls : List Call) (k : Nat) (hu : Unreadable fs s.file_path_)
    (hcalls : ∀ c ∈ calls, c.keepsPath s.file_path_ ∧ Unreadable c.fs s.file_path_) :
    (ReadTextFromFile fs s).current_text_ = s.current_text_ ∧
      (runCalls tps s (calls.take k)).current_text_ = s.current_text_ := by
  refine ⟨by rw [ReadTextFromFile_of_unreadable hu], ?_⟩
  exact (runCalls_unreadable tps (calls.take k) s
    fun c hc => hcalls c (List.mem_of_mem_take hc)).2

/-- Witness of `unreadable_source_keeps_text` at a cached `"hello"`: with the file `"f"` not
opening, a `Process` call 6 s after the last reload, a second one 6 s later that names `"f"`
again, and the reload itself all leave `"hello"`. -/
theorem unreadable_source_keeps_text_witness :
    (Unreadable noFiles "f" ∧
        ∀ c ∈ [Call.frame (plainFrame 6000000000 noFiles),
            Call.frame (pathFrame "f" 12000000000 noFiles)],
          c.keepsPath "f" ∧ Unreadable c.fs "f") ∧
      (ReadTextFromFile noFiles (cachedStage "hello" false)).current_text_ = "hello" ∧
      (runCalls 1000000000 (cachedStage "hello" false)
        [Call.frame (plainFrame 6000000000 noFiles),
          Call.frame (pathFrame "f" 12000000000 noFiles)]).current_text_ =
        "hello" :=
  have hu : Unreadable noFiles "f" := Or.inr rfl
  have hcalls : ∀ c ∈ [Call.frame (plainFrame 6000000000 noFiles),
      Call.frame (pathFrame "f" 12000000000 noFiles)],
      c.keepsPath "f" ∧ Unreadable c.fs "f" := by
    intro c hc
    simp only [List.mem_cons, List.mem_singleton, List.not_mem_nil, or_false] at hc
    rcases hc with rfl | rfl
    · exact ⟨Or.inl rfl, Or.inr rfl⟩
    · exact ⟨Or.inr rfl, Or.inr rfl⟩
  ⟨⟨hu, hcalls⟩,
    unreadable_source_keeps_text 1000000000 noFiles
      (cachedStage "hello" false)
      [Call.frame (plainFrame 6000000000 noFiles),
        Call.frame (pathFrame "f" 12000000000 noFiles)] 2 hu hcalls⟩

/-- C6: `Process` calls whose metadata names the path the stage already has leave the path as
it is, and end in the same stage (timestamp and cached text included), with `ReadTextFromFile`
called by the same calls, as the same calls with no path in their metadata. -/
theorem same_path_frames_as_pathless (tps : Int) (frames : List Frame)
    (s : AutoUpdateTextStage)
    (h : ∀ f ∈ frames, f.metadata.Get "auto_update_text.file" = some s.file_path_) :
    runFrames tps frames s = runFrames tps (frames.map Frame.withoutPath) s ∧
      (runFrames tps frames s).1.file_path_ = s.file_path_ := by
  induction frames generalizing s with
  | nil => exact ⟨rfl, rfl⟩
  | cons f fr ih =>
    have hf := h f (List.mem_cons_self f fr)
    have hw : f.withoutPath.metadata.Get "auto_update_text.file" = none := by
      simp [Frame.withoutPath, Metadata.without, Metadata.Get]
    have heq := Process_keepsPath_eq tps f.fs f.t_redirect f.t_redirect f.t_check f.metadata
      f.withoutPath.metadata s (Or.inr hf) (Or.inl hw)
    have hpath := Process_keepsPath_path tps f.fs f.t_redirect f.t_check f.metadata s (Or.inr hf)
    have hrest : ∀ f' ∈ fr, f'.metadata.Get "auto_update_text.file" =
        some (s.Process tps f.fs f.t_redirect f.t_check f.metadata).stage.file_path_ := by
      intro f' hf'
      rw [hpath]
      exact h f' (List.mem_cons_of_mem f hf')
    have := ih (s.Process tps f.fs f.t_redirect f.t_check f.metadata).stage hrest
    constructor
    · rw [List.map_cons]
      unfold runFrames
      simp only
      have e1 : f.withoutPath.fs = f.fs := rfl
      have e2 : f.withoutPath.t_redirect = f.t_redirect := rfl
      have e3 : f.withoutPath.t_check = f.t_check := rfl
      rw [e1, e2, e3, ← heq.1, ← heq.2, this.1]
    · unfold runFrames
      simp only
      rw [this.2, hpath]

/-- Witness of `same_path_frames_as_pathless` at two calls naming the current path `"f"`, 1 s and
7 s after the last reload: only the second reloads, as with no path named, and the path stays
`"f"`. -/
theorem same_path_frames_as_pathless_witness :
    (∀ f ∈ [(pathFrame "f" 1000000000 (fileWith "f" ["a"])),
          (pathFrame "f" 7000000000 (fileWith "f" ["b"]))],
        f.metadata.Get "auto_update_text.file" = some "f") ∧
      runFrames 1000000000
          [(pathFrame "f" 1000000000 (fileWith "f" ["a"])),
            (pathFrame "f" 7000000000 (fileWith "f" ["b"]))]
          (cachedStage "old" false) =
        ({ file_path_ := "f", current_text_ := "b", running_ := false,
            last_read_time_ := 7000000000 }, [false, true]) :=
  have h : ∀ f ∈ [(pathFrame "f" 1000000000 (fileWith "f" ["a"])),
      (pathFrame "f" 7000000000 (fileWith "f" ["b"]))],
      f.metadata.Get "auto_update_text.file" = some "f" := by
    intro f hf
    simp only [List.mem_cons, List.mem_singleton, List.not_mem_nil, or_false] at hf
    rcases hf with rfl | rfl <;> rfl
  ⟨h, (same_path_frames_as_pathless 1000000000 _
    (cachedStage "old" false)
    h).1.trans (by decide)⟩

/-- Counterexample to C5 as stated: three `Process` calls at 5 s, 8 s and 11 s, each less than
the 5 s interval after the one before, none with a path, background loop not running; the first
loads `"a"`, and the third, 6 s after that load, reloads and leaves `"b"`. -/
theorem text_changes_under_interval_spacing :
    spacedFrames.map (fun f => f.t_check) = [5000000000, 8000000000, 11000000000] ∧
      (∀ f ∈ spacedFrames, f.metadata.Get "auto_update_text.file" = none) ∧
      configuredStage.running_ = false ∧
      runFrames 1000000000 (spacedFrames.take 1) configuredStage =
        ({ file_path_ := "f", current_text_ := "a", running_ := false,
            last_read_time_ := 5000000000 }, [true]) ∧
      runFrames 1000000000 spacedFrames configuredStage =
        ({ file_path_ := "f", current_text_ := "b", running_ := false,
            last_read_time_ := 11000000000 }, [true, false, true]) := by
  refine ⟨by decide, ?_, by decide, by decide, by decide⟩
  intro f hf
  simp only [spacedFrames, List.mem_cons, List.mem_singleton, List.not_mem_nil, or_false] at hf
  rcases hf with rfl | rfl | rfl <;> rfl

/-- C5, amended: with the background loop not running, once a `Process` call has loaded the
source (its check was due, and the file opened and yielded `lines`), the cached text after each
later call that asks for no path change and is made less than the refresh interval after that
load is the text that load stored, however the file changes. -/
theorem text_fixed_within_interval_of_load (tps : Int) (htps : 0 < tps)
    (s : AutoUpdateTextStage) (f0 : Frame) (lines : List String) (rest : List Frame) (k : Nat)
    (hrun : s.running_ = false) (hk0 : f0.keepsPath s.file_path_)
    (hdue : 5 * tps ≤ f0.t_check - s.last_read_time_) (hp : s.file_path_ ≠ "")
    (ho : f0.fs s.file_path_ = some lines)
    (hrest : ∀ f ∈ rest, f.keepsPath s.file_path_ ∧ f.t_check - f0.t_check < 5 * tps) :
    runFrames tps [f0] s =
        ({ s with current_text_ := readLoop lines, last_read_time_ := f0.t_check }, [true]) ∧
      (runFrames tps (f0 :: rest.take k) s).1.current_text_ = readLoop lines := by
  have hiff := interval_le_tdiv_iff htps (f0.t_check - s.last_read_time_)
  unfold update_interval_ at hiff
  have hread : ReadTextFromFile f0.fs { s with last_read_time_ := f0.t_check } =
      { s with current_text_ := readLoop lines, last_read_time_ := f0.t_check } :=
    ReadTextFromFile_of_open (s := { s with last_read_time_ := f0.t_check }) hp ho
  rw [hrun] at hread
  have hfirst : (s.Process tps f0.fs f0.t_redirect f0.t_check f0.metadata).stage =
        { s with current_text_ := readLoop lines, last_read_time_ := f0.t_check } ∧
      (s.Process tps f0.fs f0.t_redirect f0.t_check f0.metadata).read_called = true := by
    unfold Process GetFilePath update_interval_
    rcases hk0 with h | h <;> simp [h, hrun, hiff.2 hdue, hread]
  constructor
  · unfold runFrames runFrames
    simp only
    rw [hfirst.1, hfirst.2]
  · unfold runFrames
    simp only
    rw [hfirst.1]
    rw [runFrames_not_due tps htps (rest.take k)
      { s with current_text_ := readLoop lines, last_read_time_ := f0.t_check }
      fun f hf => hrest f (List.mem_of_mem_take hf)]

/-- Witness of `text_fixed_within_interval_of_load` at a nanosecond clock: after the load of `"a"`
at 5 s, calls at 8 s and at 9.999999999 s leave `"a"` although the file now holds `"b"`. -/
theorem text_fixed_within_interval_of_load_witness :
    ((0 : Int) < 1000000000 ∧ configuredStage.running_ = false ∧
        (plainFrame 5000000000 (fileWith "f" ["a"])).keepsPath configuredStage.file_path_ ∧
        5 * 1000000000 ≤ (plainFrame 5000000000 (fileWith "f" ["a"])).t_check -
          configuredStage.last_read_time_ ∧
        configuredStage.file_path_ ≠ "" ∧
        (plainFrame 5000000000 (fileWith "f" ["a"])).fs configuredStage.file_path_ =
          some ["a"] ∧
        ∀ f ∈ [plainFrame 8000000000 (fileWith "f" ["b"]),
            plainFrame 9999999999 (fileWith "f" ["b"])],
          f.keepsPath configuredStage.file_path_ ∧
            f.t_check - (plainFrame 5000000000 (fileWith "f" ["a"])).t_check <
              5 * 1000000000) ∧
      (runFrames 1000000000
        [plainFrame 5000000000 (fileWith "f" ["a"]), plainFrame 8000000000 (fileWith "f" ["b"]),
          plainFrame 9999999999 (fileWith "f" ["b"])] configuredStage).1.current_text_ = "a" :=
  have hrest : ∀ f ∈ [plainFrame 8000000000 (fileWith "f" ["b"]),
      plainFrame 9999999999 (fileWith "f" ["b"])],
      f.keepsPath configuredStage.file_path_ ∧
        f.t_check - (plainFrame 5000000000 (fileWith "f" ["a"])).t_check <
          5 * 1000000000 := by
    intro f hf
    simp only [List.mem_cons, List.mem_singleton, List.not_mem_nil, or_false] at hf
    rcases hf with rfl | rfl
    · exact ⟨Or.inl rfl, by decide⟩
    · exact ⟨Or.inl rfl, by decide⟩
  ⟨⟨by decide, rfl, Or.inl rfl, by decide, by decide, rfl, hrest⟩,
    (text_fixed_within_interval_of_load 1000000000 (by decide) configuredStage
      (plainFrame 5000000000 (fileWith "f" ["a"])) ["a"]
      [plainFrame 8000000000 (fileWith "f" ["b"]), plainFrame 9999999999 (fileWith "f" ["b"])]
      2 rfl (Or.inl rfl) (by decide) (by decide) rfl hrest).2⟩

/-! ## Redirect and construction -/

/-- C3: a `Process` call whose metadata names a path `p` other than the stage's sets the path
to `p`, and the next interval check made at a clock reading `t + d` not earlier than the
redirect's reading `t` calls `ReadTextFromFile` on `p`, whatever the timestamp was: with the
background loop not running that check is the inline one of the same call, and with it running
the call leaves the timestamp at `t` minus five seconds and any next pass of the loop reloads. -/
theorem Process_redirect_forces_reload (tps : Int) (htps : 0 < tps) (fs : FileSystem)
    (t : Int) (d : Nat) (md : Metadata) (p : String) (s : AutoUpdateTextStage)
    (hget : md.Get "auto_update_text.file" = some p) (hne : p ≠ s.file_path_) :
    (s.Process tps fs t (t + d) md).stage.file_path_ = p ∧
      (match s.running_ with
      | false =>
        (s.Process tps fs t (t + d) md).read_called = true ∧
          (s.Process tps fs t (t + d) md).stage =
            ReadTextFromFile fs { s with file_path_ := p, last_read_time_ := t + d }
      | true =>
        (s.Process tps fs t (t + d) md).read_called = false ∧
          (s.Process tps fs t (t + d) md).stage =
            { s with file_path_ := p, last_read_time_ := t - 5 * tps } ∧
          ∀ (e : Nat) (fs1 : FileSystem),
            UpdateThreadPass tps fs1 (t + e) (s.Process tps fs t (t + d) md).stage =
                (ReadTextFromFile fs1 { s with file_path_ := p, last_read_time_ := t + e },
                  true) ∧
              UpdateThreadFunc tps [(t + e, fs1)] (s.Process tps fs t (t + d) md).stage =
                ReadTextFromFile fs1 { s with file_path_ := p, last_read_time_ := t + e }) := by
  have hdue : ∀ e : Nat, 5 ≤ (t + (e : Int) - (t - 5 * tps)).tdiv tps := fun e => by
    have h := (interval_le_tdiv_iff htps (t + (e : Int) - (t - 5 * tps))).2
    unfold update_interval_ at h
    apply h
    have he : (0 : Int) ≤ (e : Int) := Int.ofNat_nonneg e
    omega
  have hdue1 : ∀ e : Nat, 5 ≤ ((e : Int) + 5 * tps).tdiv tps := fun e => by
    have h := hdue e
    have harith : t + (e : Int) - (t - 5 * tps) = (e : Int) + 5 * tps := by omega
    rwa [harith] at h
  obtain ⟨path, text, running, last⟩ := s
  simp only at hne
  cases running
  · have hstage : (Process tps fs t (t + d) md ⟨path, text, false, last⟩).stage =
        ReadTextFromFile fs ⟨p, text, false, t + d⟩ ∧
        (Process tps fs t (t + d) md ⟨path, text, false, last⟩).read_called = true := by
      unfold Process GetFilePath SetFilePath update_interval_
      simp [hget, hne, hdue1 d]
    refine ⟨?_, hstage.2, hstage.1⟩
    rw [hstage.1]
    exact (ReadTextFromFile_frame fs _).1
  · have hstage : (Process tps fs t (t + d) md ⟨path, text, true, last⟩).stage =
        ⟨p, text, true, t - 5 * tps⟩ ∧
        (Process tps fs t (t + d) md ⟨path, text, true, last⟩).read_called = false := by
      unfold Process GetFilePath SetFilePath update_interval_
      simp [hget, hne]
    refine ⟨by rw [hstage.1], hstage.2, hstage.1, ?_⟩
    intro e fs1
    rw [hstage.1]
    have hpass : UpdateThreadPass tps fs1 (t + e) ⟨p, text, true, t - 5 * tps⟩ =
        (ReadTextFromFile fs1 ⟨p, text, true, t + e⟩, true) := by
      unfold UpdateThreadPass update_interval_
      simp [hdue1 e]
    refine ⟨hpass, ?_⟩
    unfold UpdateThreadFunc UpdateThreadFunc
    rw [hpass]
    simp

/-- Witness of `Process_redirect_forces_reload` at a stage with an empty path that reloaded at the
clock's zero: a frame at 1 s naming `"g"`, which holds `"hi"`, makes that same call cache and
publish `"hi"`. -/
theorem Process_redirect_forces_reload_witness :
    ((0 : Int) < 1000000000 ∧
        (pathFrame "g" 1000000000 (fileWith "g" ["hi"])).metadata.Get "auto_update_text.file" =
          some "g" ∧
        "g" ≠ (ctor 0).file_path_) ∧
      (Process 1000000000 (fileWith "g" ["hi"]) 1000000000 (1000000000 + (0 : Nat))
          (pathFrame "g" 1000000000 (fileWith "g" ["hi"])).metadata (ctor 0)).stage =
        { file_path_ := "g", current_text_ := "hi", running_ := false,
          last_read_time_ := 1000000000 } ∧
      (Process 1000000000 (fileWith "g" ["hi"]) 1000000000 1000000000
          (pathFrame "g" 1000000000 (fileWith "g" ["hi"])).metadata
          (ctor 0)).metadata.Get "annotate.text" = some "hi" :=
  ⟨⟨by decide, rfl, by decide⟩,
    (Process_redirect_forces_reload 1000000000 (by decide) (fileWith "g" ["hi"]) 1000000000 0
      (pathFrame "g" 1000000000 (fileWith "g" ["hi"])).metadata "g" (ctor 0) rfl
      (by decide)).2.2.trans (by decide),
    by decide⟩

/-- C4: the constructor leaves the cached text empty and the timestamp at the construction
instant itself, not five seconds before it: a stage constructed at the clock's zero and
configured with the readable file `"f"` makes no reload in a first `Process` call 1 s later and
publishes nothing, while after `Start` at the same instant the first pass of the loop reloads. -/
theorem ctor_timestamp_is_construction_instant :
    (∀ now : Int, (ctor now).last_read_time_ = now ∧ (ctor now).current_text_ = "" ∧
        (ctor now).running_ = false) ∧
      (Process 1000000000 (fileWith "f" ["hi"]) 1000000000 1000000000 emptyMetadata
          configuredStage).read_called = false ∧
      (Process 1000000000 (fileWith "f" ["hi"]) 1000000000 1000000000 emptyMetadata
          configuredStage).stage = configuredStage ∧
      (Process 1000000000 (fileWith "f" ["hi"]) 1000000000 1000000000 emptyMetadata
          configuredStage).metadata.Get "annotate.text" = none ∧
      UpdateThreadPass 1000000000 (fileWith "f" ["hi"]) 0 (Start 1000000000 0 configuredStage) =
        ({ file_path_ := "f", current_text_ := "hi", running_ := true,
            last_read_time_ := 0 }, true) := by
  refine ⟨fun now => ⟨rfl, rfl, rfl⟩, by decide, by decide, by decide, by decide⟩
